import Mathlib

/-
  Verification development for the telemetry core of the pm2-io agent.

  Shallow embedding of:
  - src/lib/services/transport.ts   (createTransport, TransportChannel contract)
  - src/lib/metrics/v8.ts           (V8Metric feature)
  - the runtime metrics feature     (RuntimeMetrics: GC pause / page fault /
                                     context switch histograms)

  JavaScript numbers are modelled as rationals; the non-finite corners of
  IEEE arithmetic (NaN, Infinity) are outside the model and theorems carry
  explicit hypotheses keeping them away from those corners.
-/

namespace PM2IO

/-! ## A minimal model of JavaScript values

Only what the embedded code inspects: `typeof`, member access (which throws
a TypeError on `null` and `undefined`), and plain data. Note that in
JavaScript `typeof null` is the string `"object"`. -/

inductive JsVal where
  | num (q : ℚ)
  | str (s : String)
  | boolv (b : Bool)
  | undefv
  | nullv
  | obj (fields : List (String × JsVal))
deriving Repr

/-- The JavaScript `typeof` operator restricted to the values we model. -/
def JsVal.typeof : JsVal → String
  | .num _ => "number"
  | .str _ => "string"
  | .boolv _ => "boolean"
  | .undefv => "undefined"
  | .nullv => "object"
  | .obj _ => "object"

/-- Errors the embedded code can raise. `typeError` stands both for a
member access on `null` or `undefined` and for the `ERR_INVALID_ARG_TYPE`
TypeError Node raises when `removeListener` is given a non-function. -/
inductive JsError where
  | typeError
deriving Repr, DecidableEq

/-- First-match lookup in a field list; a missing field reads as
`undefined`, as in JavaScript. -/
def lookupField : List (String × JsVal) → String → JsVal
  | [], _ => .undefv
  | (k, v) :: rest, name => if k = name then v else lookupField rest name

/-- JavaScript member access `x.name`: throws a TypeError when the receiver
is `null` or `undefined`; reads `undefined` for an absent field; on other
primitives resolves to `undefined` for the fields we model. -/
def JsVal.getField : JsVal → String → Except JsError JsVal
  | .nullv, _ => .error .typeError
  | .undefv, _ => .error .typeError
  | .obj fields, name => .ok (lookupField fields name)
  | _, _ => .ok .undefv

/-! ## createTransport (src/lib/services/transport.ts)

```ts
export function createTransport (name: string, config: TransportConfig): Transport {
  switch (name) {
    case 'ipc': {
      const transport = new IPCTransport()
      transport.init(config)
      return transport
    }
  }
  console.error(`Failed to find transport implementation: ${name}`)
  return process.exit(1)
}
```
-/

/-- Outcome of a `createTransport` call: either a transport instance was
constructed and initialised, or the process was terminated via
`process.exit` after printing a diagnostic to stderr. -/
inductive TransportOutcome where
  | created (implName : String)
  | exited (code : ℕ) (diagnostic : String)
deriving Repr, DecidableEq

/-- Embedding of `createTransport`. The only recognised implementation
name is `ipc`; every other name falls through the `switch` to
`console.error` followed by `process.exit(1)`. -/
def createTransport (name : String) : TransportOutcome :=
  if name = "ipc" then
    .created "ipc"
  else
    .exited 1 ("Failed to find transport implementation: " ++ name)

/-! ## TransportChannel outbound queue

Modelled from the spec: the IPCTransport implementation
(`src/transports/IPCTransport.ts`) is not part of the visible source; only
the `Transport` interface is. Per the spec, `send(topic, payload)` never
blocks: while the channel is not `connected` the payload is buffered in a
bounded queue and, when the queue is full, the oldest entry is dropped;
upon reaching `connected` the buffered entries drain in submission
order. -/

inductive ConnState where
  | disconnected
  | connecting
  | connected
  | closing
deriving Repr, DecidableEq

/-- Modelled from the spec: a transport channel with its connection state,
its bounded outbound buffer (oldest first) and the list of payloads
delivered to the remote side so far (in delivery order). -/
structure Channel (α : Type) where
  capacity : ℕ
  connState : ConnState
  buffer : List (String × α)
  delivered : List (String × α)
deriving Repr

/-- A fresh channel: disconnected, empty buffer, nothing delivered. -/
def Channel.new (α : Type) (cap : ℕ) : Channel α :=
  ⟨cap, .disconnected, [], []⟩

/-- Modelled from the spec: `send` delivers directly when connected;
otherwise it appends to the buffer, evicting the oldest entry when the
buffer is at capacity. -/
def Channel.send (c : Channel α) (topic : String) (payload : α) : Channel α :=
  match c.connState with
  | .connected => { c with delivered := c.delivered ++ [(topic, payload)] }
  | _ =>
    if c.capacity ≤ c.buffer.length then
      { c with buffer := c.buffer.drop 1 ++ [(topic, payload)] }
    else
      { c with buffer := c.buffer ++ [(topic, payload)] }

/-- Modelled from the spec: on reaching `connected` the buffered entries
are drained, in original submission order, to the remote side. -/
def Channel.connect (c : Channel α) : Channel α :=
  { c with connState := .connected, buffer := [], delivered := c.delivered ++ c.buffer }

/-- Send a whole list of `(topic, payload)` pairs, in order. -/
def Channel.sendAll (c : Channel α) (ps : List (String × α)) : Channel α :=
  ps.foldl (fun ch p => ch.send p.1 p.2) c

/-! ## Histogram accumulator

Modelled from the spec: the Histogram implementation
(`src/utils/metrics/histogram`) is not part of the visible source; the
runtime metrics feature only imports it. Per the spec, a histogram keeps a
fixed-capacity sample window (oldest samples replaced on overflow so that
recent behavior dominates); `percentiles` sorts the retained window and
linearly interpolates between order statistics, and querying an empty
accumulator returns a defined no-data sentinel (here `none`) rather than
raising an error. -/

structure Histogram where
  capacity : ℕ
  samples : List ℚ
deriving Repr

/-- A fresh histogram with the given window capacity. -/
def Histogram.create (cap : ℕ) : Histogram := ⟨cap, []⟩

/-- Modelled from the spec: fold one observation into the window,
replacing the oldest retained sample when the window is full. -/
def Histogram.observe (h : Histogram) (v : ℚ) : Histogram :=
  if h.capacity ≤ h.samples.length then
    ⟨h.capacity, h.samples.drop 1 ++ [v]⟩
  else
    ⟨h.capacity, h.samples ++ [v]⟩

/-- Linear interpolation between order statistics of an already sorted
window `s` at rank `q`: position `q * (n - 1)`, value interpolated between
the two neighbouring order statistics (clamped at the last index). -/
def interpolateRank (s : List ℚ) (q : ℚ) : ℚ :=
  let n := s.length
  let pos := q * ((n : ℚ) - 1)
  let i := (⌊pos⌋).toNat
  let j := min (i + 1) (n - 1)
  let lo := s.getD i 0
  let hi := s.getD j 0
  lo + (pos - (⌊pos⌋ : ℚ)) * (hi - lo)

/-- Modelled from the spec: the percentile query sorts the retained window
and linearly interpolates; an empty window yields the no-data sentinel. -/
def Histogram.percentile (h : Histogram) (q : ℚ) : Option ℚ :=
  match h.samples with
  | [] => none
  | _ :: _ => some (interpolateRank (h.samples.insertionSort (· ≤ ·)) q)

/-- The p50 metric handler of the runtime metrics feature:
`this.implementation.percentiles([0.5])[0.5]`. -/
def p50Handler (h : Histogram) : Option ℚ :=
  h.percentile (1 / 2)

/-! ## V8Metric (src/lib/metrics/v8.ts) -/

/-- The eight boolean fields of the `V8MetricsConfig` interface. Note the
field names `heap_total_size` and `heap_used_size`: they differ from the
metric definition keys `total_heap_size` and `used_heap_size`. -/
structure V8MetricsConfig where
  new_space : Bool
  old_space : Bool
  map_space : Bool
  code_space : Bool
  large_object_space : Bool
  heap_total_size : Bool
  heap_used_size : Bool
  heap_used_percent : Bool
deriving Repr, DecidableEq

/-- The `defaultOptions` constant of v8.ts. -/
def v8DefaultOptions : V8MetricsConfig :=
  ⟨false, false, false, false, false, true, true, true⟩

/-- TypeScript index access `config[k]` on a `V8MetricsConfig` object:
`some b` when `k` is one of the eight declared fields, `none` (standing
for the JavaScript value `undefined`) otherwise. -/
def V8MetricsConfig.lookup (c : V8MetricsConfig) (k : String) : Option Bool :=
  if k = "new_space" then some c.new_space
  else if k = "old_space" then some c.old_space
  else if k = "map_space" then some c.map_space
  else if k = "code_space" then some c.code_space
  else if k = "large_object_space" then some c.large_object_space
  else if k = "heap_total_size" then some c.heap_total_size
  else if k = "heap_used_size" then some c.heap_used_size
  else if k = "heap_used_percent" then some c.heap_used_percent
  else none

/-- The argument accepted by `V8Metric.init`: `V8MetricsConfig | boolean`. -/
inductive V8ConfigArg where
  | flag (b : Bool)
  | conf (c : V8MetricsConfig)
deriving Repr, DecidableEq

/-- One entry of `metricsDefinitions` (name, id, unit, historic). -/
structure MetricDef where
  name : String
  id : String
  unit : String
  historic : Bool
deriving Repr, DecidableEq

/-- The `metricsDefinitions` record of v8.ts, in object-key order. -/
def v8MetricsDefinitions : List (String × MetricDef) :=
  [("total_heap_size", ⟨"Heap Size", "internal/v8/heap/total", "MiB", true⟩),
   ("heap_used_percent", ⟨"Heap Usage", "internal/v8/heap/usage", "%", true⟩),
   ("used_heap_size", ⟨"Used Heap Size", "internal/v8/heap/used", "MiB", true⟩)]

/-- A value held by a gauge: v8.ts writes both strings (formatted MiB
sizes) and numbers (the heap usage percentage) into its gauges. -/
inductive GaugeVal where
  | str (s : String)
  | num (q : ℚ)
deriving Repr, DecidableEq

/-- The gauge store `metricStore : Map<string, Gauge>`; each entry keeps
the last value set on the gauge (`none` while unset). -/
def GaugeStore := List (String × Option GaugeVal)

instance : Repr GaugeStore := inferInstanceAs (Repr (List (String × Option GaugeVal)))

/-- `Map.get`: `none` when the gauge is absent from the store. -/
def storeGet : GaugeStore → String → Option (Option GaugeVal)
  | [], _ => none
  | (k, g) :: rest, name => if k = name then some g else storeGet rest name

/-- `Map.set`: replace the entry when the key is present, append
otherwise. -/
def storePut : GaugeStore → String → Option GaugeVal → GaugeStore
  | [], name, g => [(name, g)]
  | (k, g0) :: rest, name, g =>
      if k = name then (name, g) :: rest else (k, g0) :: storePut rest name g

/-- The observable state of a `V8Metric` instance: whether the metric
service reference is set, the gauge store, the intervals currently
scheduled in the runtime (each with its unref flag), the interval id held
by `this.timer`, and the diagnostics logged. `scheduled` can hold more
than one entry because a repeated `init` calls `setInterval` again
without clearing the previous interval, which keeps firing. -/
structure V8State where
  metricServicePresent : Bool
  metricStore : GaugeStore
  scheduled : List (ℕ × Bool)
  timerRef : Option ℕ
  nextTimerId : ℕ
  logs : List String
deriving Repr

/-- A freshly constructed `V8Metric`. -/
def V8State.initial : V8State :=
  ⟨false, [], [], none, 0, []⟩

/-- One iteration of the registration loop of `V8Metric.init`:
`if (config[metricName] === false) continue` then
`metricStore.set(metricName, metricService.metric(metric))`, which binds a
fresh, unset gauge. -/
def v8RegStep (config : V8MetricsConfig) (store : GaugeStore)
    (entry : String × MetricDef) : GaugeStore :=
  if config.lookup entry.1 = some false then store
  else storePut store entry.1 none

/-- Embedding of `V8Metric.init`. `msAvail` models whether
`ServiceManager.get('metrics')` finds a service; `hasHeapStats` models
`v8.hasOwnProperty('getHeapStatistics')`. -/
def V8Metric.init (msAvail hasHeapStats : Bool) (cfg : V8ConfigArg)
    (st : V8State) : V8State :=
  match cfg with
  | .flag false => st
  | _ =>
    let config := match cfg with
      | .conf c => c
      | .flag _ => v8DefaultOptions
    let st := { st with metricServicePresent := msAvail }
    if msAvail = false then
      { st with logs := st.logs ++ ["Failed to load metric service"] }
    else
      let st := { st with logs := st.logs ++ ["init"] }
      if hasHeapStats = false then
        { st with logs := st.logs ++ ["V8.getHeapStatistics is not available, aborting"] }
      else
        let st := { st with metricStore := v8MetricsDefinitions.foldl (v8RegStep config) st.metricStore }
        -- this.timer = setInterval(...): a new interval is scheduled and
        -- this.timer now refers to it; a previously scheduled interval,
        -- if any, keeps firing.
        let tid := st.nextTimerId
        let st := { st with scheduled := st.scheduled ++ [(tid, false)]
                            timerRef := some tid
                            nextTimerId := tid + 1 }
        -- this.timer.unref()
        { st with scheduled := st.scheduled.map (fun p => if p.1 = tid then (p.1, true) else p) }

/-- `(val / 1024 / 1024).toFixed(2)` rendered over the rationals:
`round (q * 100) / 100`, printed with exactly two decimals. -/
def toFixed2 (q : ℚ) : String :=
  let n : ℤ := round (q * 100)
  let sign := if n < 0 then "-" else ""
  let m := n.natAbs
  sign ++ toString (m / 100) ++ "." ++ (if m % 100 < 10 then "0" else "") ++ toString (m % 100)

/-- `formatMiBytes` of v8.ts: `(val / 1024 / 1024).toFixed(2)`. -/
def formatMiBytes (val : ℚ) : String :=
  toFixed2 (val / 1024 / 1024)

/-- The numeric value of `parseFloat(q.toFixed(2))`: exact over this
rational model, namely `round (q * 100) / 100`. -/
def parseFloat2 (q : ℚ) : ℚ :=
  ((round (q * 100) : ℤ) : ℚ) / 100

/-- One iteration of the tick loop of `V8Metric.init`: skip when
`stats[metricName]` is not a number or the gauge is absent, otherwise set
the gauge to the formatted MiB string. -/
def v8TickStep (stats : String → Option ℚ) (store : GaugeStore)
    (entry : String × MetricDef) : GaugeStore :=
  match stats entry.1 with
  | none => store
  | some q =>
    match storeGet store entry.1 with
    | none => store
    | some _ => storePut store entry.1 (some (.str (formatMiBytes q)))

/-- Embedding of the `setInterval` callback of `V8Metric.init`: the loop
over `metricsDefinitions` followed by the manual heap usage computation
`parseFloat((used_heap_size / total_heap_size * 100).toFixed(2))`.
The model keeps the store unchanged when either heap field is missing
from the statistics object (JavaScript would compute NaN there, which the
rational model does not represent); the theorems below assume both fields
are numbers and the total is nonzero. -/
def V8Metric.tick (stats : String → Option ℚ) (st : V8State) : V8State :=
  let store1 := v8MetricsDefinitions.foldl (v8TickStep stats) st.metricStore
  let store2 :=
    match storeGet store1 "heap_used_percent", stats "used_heap_size", stats "total_heap_size" with
    | some _, some u, some t =>
        storePut store1 "heap_used_percent" (some (.num (parseFloat2 (u / t * 100))))
    | _, _, _ => store1
  { st with metricStore := store2 }

/-- Embedding of `V8Metric.destroy` as a state transformer:
`clearInterval(this.timer)` when `this.timer` is defined, which
unschedules exactly the interval currently referenced by `this.timer`,
followed by a `destroy` log line. -/
def V8Metric.destroyStep (st : V8State) : V8State :=
  match st.timerRef with
  | none => { st with logs := st.logs ++ ["destroy"] }
  | some tid =>
    { st with scheduled := st.scheduled.filter (fun p => ¬ p.1 = tid)
              logs := st.logs ++ ["destroy"] }

/-- `V8Metric.destroy` as a fallible call: its body contains no throwing
construct (`clearInterval` and the debug logger never throw), so it
always returns `ok`. -/
def V8Metric.destroyRun (st : V8State) : Except JsError V8State :=
  .ok (V8Metric.destroyStep st)

/-- The interval machinery: a tick callback fires exactly when some
interval of this instance is still scheduled (every such interval runs
the same sampling body over the shared gauge store). -/
def V8Metric.fireTick (stats : String → Option ℚ) (st : V8State) : Option V8State :=
  if st.scheduled.isEmpty then none else some (V8Metric.tick stats st)

/-- One externally triggered operation on a `V8Metric` instance. -/
inductive V8Op where
  | initOp (msAvail hasHeapStats : Bool) (cfg : V8ConfigArg)
  | destroyOp
  | tickOp (stats : String → Option ℚ)

/-- Apply one operation; a tick only has an effect while an interval is
scheduled. -/
def V8Op.step (st : V8State) : V8Op → V8State
  | .initOp ms hs cfg => V8Metric.init ms hs cfg st
  | .destroyOp => V8Metric.destroyStep st
  | .tickOp stats => if st.scheduled.isEmpty then st else V8Metric.tick stats st

/-- Run a call sequence against a freshly constructed instance. -/
def V8Op.exec (ops : List V8Op) : V8State :=
  ops.foldl V8Op.step V8State.initial

/-- Whether an operation is an `init` call. -/
def V8Op.isInit : V8Op → Bool
  | .initOp _ _ _ => true
  | _ => false

/-! ## RuntimeMetrics (the runtime metrics feature)

The class keeps two per-init GC-pause histograms captured by the data
handler closure, and a persistent `metrics : Map<String, Histogram>` with
up to four entries for context switches and page faults. For the claims
about this feature only the sequence of `update` calls matters, so a
histogram is recorded here as the list of raw values passed to
`update`. -/

/-- The four optional histograms held in the `metrics` map of a
`RuntimeMetrics` instance (`none`: never created). Each histogram is the
list of values passed to `update` on it. -/
structure RMMetricsMap where
  volontarySwitchs : Option (List JsVal)
  inVolontarySwitchs : Option (List JsVal)
  softPageFault : Option (List JsVal)
  hardPageFault : Option (List JsVal)
deriving Repr

/-- The state touched by the data handler closure: the two GC-pause
histograms it captured at init time plus the `metrics` map. -/
structure RMHandlerState where
  newHist : List JsVal
  oldHist : List JsVal
  metricsMap : RMMetricsMap
deriving Repr

/-- One guarded histogram update of the handler body: when the metrics
map entry exists (the metric was configured), re-read `stats.usage` and
read the named counter field from it (which throws when the usage object
is `null`), appending the value to the histogram. -/
def usageUpdate (stats : JsVal) (fld : String)
    (entry : Option (List JsVal)) : Except JsError (Option (List JsVal)) :=
  match entry with
  | none => .ok none
  | some l =>
    match stats.getField "usage" with
    | .error e => .error e
    | .ok u =>
      match u.getField fld with
      | .error e => .error e
      | .ok v => .ok (some (l ++ [v]))

/-- Embedding of the `this.handle` closure of `RuntimeMetrics.init`:

```ts
this.handle = (stats: any) => {
  if (typeof stats !== 'object' || typeof stats.gc !== 'object') return
  newHistogram.update(stats.gc.newPause)
  oldHistogram.update(stats.gc.oldPause)
  if (typeof stats.usage !== 'object') return
  ... four guarded updates from stats.usage ...
}
```

Member access follows JavaScript semantics, so `stats.gc` on a `null`
`stats` (whose `typeof` is the string `object`) throws a TypeError, and
so does `stats.gc.newPause` on a `null` `gc` and `stats.usage.ru_nvcsw`
on a `null` `usage`. -/
def RuntimeMetrics.handleData (stats : JsVal) (hs : RMHandlerState) :
    Except JsError RMHandlerState :=
  if stats.typeof ≠ "object" then .ok hs
  else
    match stats.getField "gc" with
    | .error e => .error e
    | .ok gcv =>
      if gcv.typeof ≠ "object" then .ok hs
      else
        match stats.getField "gc" with
        | .error e => .error e
        | .ok gcv2 =>
          match gcv2.getField "newPause" with
          | .error e => .error e
          | .ok np =>
            match stats.getField "gc" with
            | .error e => .error e
            | .ok gcv3 =>
              match gcv3.getField "oldPause" with
              | .error e => .error e
              | .ok op =>
                let hs1 := { hs with newHist := hs.newHist ++ [np]
                                     oldHist := hs.oldHist ++ [op] }
                match stats.getField "usage" with
                | .error e => .error e
                | .ok usage =>
                  if usage.typeof ≠ "object" then .ok hs1
                  else
                    match usageUpdate stats "ru_nvcsw" hs1.metricsMap.volontarySwitchs with
                    | .error e => .error e
                    | .ok vs =>
                      let hs2 := { hs1 with metricsMap :=
                        { hs1.metricsMap with volontarySwitchs := vs } }
                      match usageUpdate stats "ru_nivcsw" hs2.metricsMap.inVolontarySwitchs with
                      | .error e => .error e
                      | .ok ivs =>
                        let hs3 := { hs2 with metricsMap :=
                          { hs2.metricsMap with inVolontarySwitchs := ivs } }
                        match usageUpdate stats "ru_minflt" hs3.metricsMap.softPageFault with
                        | .error e => .error e
                        | .ok spf =>
                          let hs4 := { hs3 with metricsMap :=
                            { hs3.metricsMap with softPageFault := spf } }
                          match usageUpdate stats "ru_majflt" hs4.metricsMap.hardPageFault with
                          | .error e => .error e
                          | .ok hpf =>
                            .ok { hs4 with metricsMap :=
                              { hs4.metricsMap with hardPageFault := hpf } }

/-- The `RuntimeMetricsOptions` interface. -/
structure RuntimeMetricsOptions where
  gcOldPause : Bool
  gcNewPause : Bool
  pageFaults : Bool
  contextSwitchs : Bool
deriving Repr, DecidableEq

/-- The `defaultOptions` constant of the runtime metrics feature. -/
def rmDefaultOptions : RuntimeMetricsOptions :=
  ⟨true, true, true, true⟩

/-- The argument accepted by `RuntimeMetrics.init`:
`RuntimeMetricsOptions | boolean | undefined`. -/
inductive RMConfigArg where
  | omitted
  | flag (b : Bool)
  | conf (c : RuntimeMetricsOptions)
deriving Repr, DecidableEq

/-- One `data` listener attached to the runtime stats service by this
instance: the identity of the handler closure and the two GC-pause
histograms it captured at its init. More than one listener can be
attached at once because a repeated `init` attaches a fresh closure
without detaching the previous one. -/
structure RMListener where
  id : ℕ
  newHist : List JsVal
  oldHist : List JsVal
deriving Repr

/-- The observable state of a `RuntimeMetrics` instance. `handleId` is
the identity of the closure currently held by `this.handle` (`none`
while `this.handle` is `undefined`); `listeners` are the handler closures
attached to the runtime stats service, in attach order; `registered` is
the sequence of metric ids declared to the metric service. -/
structure RMObj where
  metricServicePresent : Bool
  runtimeStatsPresent : Bool
  handleId : Option ℕ
  nextId : ℕ
  listeners : List RMListener
  registered : List String
  metricsMap : RMMetricsMap
  logs : List String
deriving Repr

/-- A freshly constructed `RuntimeMetrics`. -/
def RMObj.initial : RMObj :=
  ⟨false, false, none, 0, [], [], ⟨none, none, none, none⟩, []⟩

/-- Remove the first listener with the given closure identity, scanning
from the most recently attached one, as `EventEmitter.removeListener`
does; at most one instance is removed. -/
def eraseFirstById : List RMListener → ℕ → List RMListener
  | [], _ => []
  | l :: ls, i => if l.id = i then ls else l :: eraseFirstById ls i

/-- `removeListener` on the listener list: remove the most recently
attached instance of the closure, keeping attach order of the rest. -/
def removeListenerById (ls : List RMListener) (i : ℕ) : List RMListener :=
  (eraseFirstById ls.reverse i).reverse

/-- The metric ids registered by a successful `RuntimeMetrics.init`, in
registration order: the four GC-pause percentile metrics guarded by the
`gcNewPause` and `gcOldPause` flags, then the context switch histograms,
then the page fault histograms. -/
def rmRegistrations (config : RuntimeMetricsOptions) : List String :=
  (if config.gcNewPause then
      ["internal/v8/gc/new/pause/p50", "internal/v8/gc/new/pause/p95"]
    else []) ++
  (if config.gcOldPause then
      ["internal/v8/gc/old/pause/p50", "internal/v8/gc/old/pause/p95"]
    else []) ++
  (if config.contextSwitchs then
      ["internal/uv/cpu/contextswitch/volontary",
       "internal/uv/cpu/contextswitch/involontary"]
    else []) ++
  (if config.pageFaults then
      ["internal/uv/memory/pagefault/minor",
       "internal/uv/memory/pagefault/major"]
    else [])

/-- The `metrics` map entries replaced by a successful
`RuntimeMetrics.init`: fresh (empty) histograms for the configured
context switch and page fault metrics; unconfigured entries keep their
previous value. -/
def rmMapUpdate (config : RuntimeMetricsOptions) (mm : RMMetricsMap) : RMMetricsMap :=
  let mm1 :=
    if config.contextSwitchs then
      { mm with inVolontarySwitchs := some [], volontarySwitchs := some [] }
    else mm
  if config.pageFaults then
    { mm1 with softPageFault := some [], hardPageFault := some [] }
  else mm1

/-- Embedding of `RuntimeMetrics.init`. `msAvail` and `rsAvail` model
whether `ServiceManager.get('metrics')` and
`ServiceManager.get('runtimeStats')` find a service. On full success the
configured metrics are registered, fresh histograms replace the
corresponding `metrics` map entries, a fresh handler closure is bound and
the `data` listener is attached. -/
def RuntimeMetrics.init (msAvail rsAvail : Bool) (cfg : RMConfigArg)
    (rm : RMObj) : RMObj :=
  match cfg with
  | .flag false => rm
  | _ =>
    let config := match cfg with
      | .conf c => c
      | _ => rmDefaultOptions
    let rm := { rm with metricServicePresent := msAvail }
    if msAvail = false then
      { rm with logs := rm.logs ++ ["Failed to load metric service"] }
    else
      let rm := { rm with runtimeStatsPresent := rsAvail }
      if rsAvail = false then
        { rm with logs := rm.logs ++ ["Failed to load runtime stats service"] }
      else
        -- this.handle = (stats) => { ... }   (a fresh closure with fresh
        -- GC-pause histograms) followed by
        -- this.runtimeStatsService.on('data', this.handle!): the new
        -- closure is appended to the emitter listener list; a listener
        -- attached by an earlier init stays attached.
        let cid := rm.nextId
        { rm with logs := rm.logs ++ ["init"]
                  registered := rm.registered ++ rmRegistrations config
                  metricsMap := rmMapUpdate config rm.metricsMap
                  handleId := some cid
                  nextId := cid + 1
                  listeners := rm.listeners ++ [⟨cid, [], []⟩] }

/-- Embedding of `RuntimeMetrics.destroy`:

```ts
destroy () {
  if (this.runtimeStatsService !== undefined) {
    this.runtimeStatsService.removeListener('data', this.handle!)
  }
  this.logger('destroy')
}
```

`removeListener` validates its listener argument and throws a TypeError
(`ERR_INVALID_ARG_TYPE`) when it is not a function, which happens exactly
when `this.handle` is still `undefined` while the runtime stats service
reference is set. When it is a function, `removeListener` detaches at
most one attached instance of exactly that closure; listeners attached
by earlier init calls are distinct closures and stay attached. -/
def RuntimeMetrics.destroyRun (rm : RMObj) : Except JsError RMObj :=
  if rm.runtimeStatsPresent then
    match rm.handleId with
    | none => .error .typeError
    | some i =>
      .ok { rm with listeners := removeListenerById rm.listeners i
                    logs := rm.logs ++ ["destroy"] }
  else
    .ok { rm with logs := rm.logs ++ ["destroy"] }

/-- Run one `data` event through the attached listeners in attach order.
Each listener updates its own captured GC-pause histograms and the shared
`metrics` map; a TypeError raised by a listener propagates out of the
emitter, so the remaining listeners do not run for that event. -/
def runListeners (d : JsVal) : List RMListener → RMMetricsMap → List RMListener × RMMetricsMap
  | [], mm => ([], mm)
  | l :: ls, mm =>
    match RuntimeMetrics.handleData d ⟨l.newHist, l.oldHist, mm⟩ with
    | .ok hs =>
      let (ls2, mm2) := runListeners d ls hs.metricsMap
      (⟨l.id, hs.newHist, hs.oldHist⟩ :: ls2, mm2)
    | .error _ => (l :: ls, mm)

/-- Delivery of one `data` event from the runtime stats service. -/
def RuntimeMetrics.deliverData (d : JsVal) (rm : RMObj) : RMObj :=
  let (ls, mm) := runListeners d rm.listeners rm.metricsMap
  { rm with listeners := ls, metricsMap := mm }

/-- One externally triggered operation on a `RuntimeMetrics` instance. -/
inductive RMOp where
  | initOp (msAvail rsAvail : Bool) (cfg : RMConfigArg)
  | destroyOp
  | dataOp (d : JsVal)

/-- Apply one operation. A destroy that would throw leaves the state
unchanged (the exception propagates to the caller). -/
def RMObj.step (rm : RMObj) : RMOp → RMObj
  | .initOp ms rs cfg => RuntimeMetrics.init ms rs cfg rm
  | .destroyOp =>
    match RuntimeMetrics.destroyRun rm with
    | .ok rm2 => rm2
    | .error _ => rm
  | .dataOp d => RuntimeMetrics.deliverData d rm

/-- Run a call sequence against a freshly constructed instance. -/
def RMObj.exec (ops : List RMOp) : RMObj :=
  ops.foldl RMObj.step RMObj.initial

/-- Whether an operation is an `init` call. -/
def RMOp.isInit : RMOp → Bool
  | .initOp _ _ _ => true
  | _ => false

/-! # Theorems -/

/-- C1, counterexample: `createTransport` invoked with the unknown name
`websocket` prints a diagnostic and terminates the process via
`process.exit(1)`; the claim that the call never terminates the process
is false at this input. -/
theorem c1_createTransport_counterexample :
    createTransport "websocket" =
      TransportOutcome.exited 1 "Failed to find transport implementation: websocket" := by
  rfl

/-- C1, amended: for the known name `ipc` a transport is created and
initialised; for every other name `createTransport` logs the diagnostic
and terminates the process with exit code 1 (it does not degrade to a
no-op). -/
theorem c1_createTransport_amended (name : String) (h : name ≠ "ipc") :
    createTransport "ipc" = TransportOutcome.created "ipc" ∧
    createTransport name =
      TransportOutcome.exited 1 ("Failed to find transport implementation: " ++ name) :=
  ⟨rfl, by simp [createTransport, h]⟩

/-- C1, witness: the amended theorem applied at the concrete name
`websocket`. -/
theorem c1_createTransport_amended_witness :
    createTransport "ipc" = TransportOutcome.created "ipc" ∧
    createTransport "websocket" =
      TransportOutcome.exited 1 "Failed to find transport implementation: websocket" :=
  c1_createTransport_amended "websocket" (by decide)

/-- Sending any list of payloads into a fresh (disconnected) channel
leaves it disconnected with nothing delivered, and the buffer holds
exactly the most recent `capacity` submissions, in submission order. -/
theorem sendAll_new_buffer (α : Type) (cap : ℕ) (hcap : 0 < cap)
    (ps : List (String × α)) :
    (Channel.sendAll (Channel.new α cap) ps).connState = .disconnected ∧
    (Channel.sendAll (Channel.new α cap) ps).delivered = [] ∧
    (Channel.sendAll (Channel.new α cap) ps).capacity = cap ∧
    (Channel.sendAll (Channel.new α cap) ps).buffer = ps.drop (ps.length - cap) := by
  induction ps using List.reverseRecOn with
  | nil => refine ⟨rfl, rfl, rfl, ?_⟩; simp [Channel.sendAll, Channel.new]
  | append_singleton ps p ih =>
    obtain ⟨hconn, hdel, hc, hbuf⟩ := ih
    have hfold : Channel.sendAll (Channel.new α cap) (ps ++ [p])
        = (Channel.sendAll (Channel.new α cap) ps).send p.1 p.2 := by
      simp [Channel.sendAll]
    set ch := Channel.sendAll (Channel.new α cap) ps with hch
    have hlen : ch.buffer.length = ps.length - (ps.length - cap) := by
      rw [hbuf, List.length_drop]
    by_cases hge : cap ≤ ps.length
    · have hfull : cap ≤ ch.buffer.length := by omega
      have hsend : ch.send p.1 p.2
          = { ch with buffer := ch.buffer.drop 1 ++ [p] } := by
        rw [Channel.send, hconn, if_pos (by omega)]
      refine ⟨?_, ?_, ?_, ?_⟩
      · rw [hfold, hsend]; exact hconn
      · rw [hfold, hsend]; exact hdel
      · rw [hfold, hsend]; exact hc
      · rw [hfold, hsend]
        show ch.buffer.drop 1 ++ [p] = (ps ++ [p]).drop ((ps ++ [p]).length - cap)
        rw [hbuf, List.drop_drop]
        have h1 : (ps ++ [p]).length - cap = (ps.length - cap) + 1 := by
          simp; omega
        rw [h1, List.drop_append_of_le_length (by omega)]
    · have hnotfull : ¬ cap ≤ ch.buffer.length := by omega
      have hsend : ch.send p.1 p.2
          = { ch with buffer := ch.buffer ++ [p] } := by
        rw [Channel.send, hconn, if_neg (by omega)]
      refine ⟨?_, ?_, ?_, ?_⟩
      · rw [hfold, hsend]; exact hconn
      · rw [hfold, hsend]; exact hdel
      · rw [hfold, hsend]; exact hc
      · rw [hfold, hsend]
        show ch.buffer ++ [p] = (ps ++ [p]).drop ((ps ++ [p]).length - cap)
        have h1 : (ps ++ [p]).length - cap = 0 := by simp; omega
        have h2 : ps.length - cap = 0 := by omega
        rw [hbuf, h1, h2, List.drop_zero, List.drop_zero]

/-- C2: every `send` issued while the channel is disconnected is buffered
up to the fixed capacity; a send beyond capacity evicts the oldest
buffered entry and never the newest (the buffer is always the suffix of
the most recent `capacity` submissions, in submission order), and on
reaching the connected state the buffered entries are delivered in their
original submission order. -/
theorem c2_disconnected_buffering (α : Type) (cap : ℕ) (hcap : 0 < cap)
    (ps : List (String × α)) :
    (Channel.sendAll (Channel.new α cap) ps).buffer = ps.drop (ps.length - cap) ∧
    (Channel.sendAll (Channel.new α cap) ps).buffer.length ≤ cap ∧
    (Channel.sendAll (Channel.new α cap) ps).connect.delivered
      = ps.drop (ps.length - cap) := by
  obtain ⟨hconn, hdel, hc, hbuf⟩ := sendAll_new_buffer α cap hcap ps
  refine ⟨hbuf, ?_, ?_⟩
  · rw [hbuf, List.length_drop]; omega
  · rw [Channel.connect, hdel, hbuf]; simp

/-- C2, witness: three sends into a disconnected channel of capacity two
keep the two most recent payloads and drain them in order on connect. -/
theorem c2_disconnected_buffering_witness :
    (Channel.sendAll (Channel.new ℕ 2) [("a", 1), ("b", 2), ("c", 3)]).buffer
      = [("b", 2), ("c", 3)] ∧
    (Channel.sendAll (Channel.new ℕ 2) [("a", 1), ("b", 2), ("c", 3)]).connect.delivered
      = [("b", 2), ("c", 3)] := by
  have h := c2_disconnected_buffering ℕ 2 (by decide) [("a", 1), ("b", 2), ("c", 3)]
  exact ⟨h.1, h.2.2⟩

/-- Observing a value always leaves the window nonempty. -/
theorem observe_samples_ne_nil (h : Histogram) (v : ℚ) :
    (h.observe v).samples ≠ [] := by
  rw [Histogram.observe]
  split <;> simp

/-- Folding a nonempty observation list leaves the window nonempty. -/
theorem foldl_observe_ne_nil (vs : List ℚ) (h : Histogram) (hne : vs ≠ []) :
    (vs.foldl Histogram.observe h).samples ≠ [] := by
  induction vs generalizing h with
  | nil => exact absurd rfl hne
  | cons v rest ih =>
    cases rest with
    | nil => exact observe_samples_ne_nil h v
    | cons w ws => exact ih (h.observe v) (by simp)

/-- Every sample retained after one observation was either already
retained or is the observed value. -/
theorem mem_observe_samples {x v : ℚ} {h : Histogram}
    (hx : x ∈ (h.observe v).samples) : x ∈ h.samples ∨ x = v := by
  rw [Histogram.observe] at hx
  split at hx <;> simp at hx <;>
    rcases hx with hx | hx
  · exact Or.inl (List.mem_of_mem_tail hx)
  · exact Or.inr hx
  · exact Or.inl hx
  · exact Or.inr hx

/-- Every sample retained after folding a list of observations was either
retained before or is one of the observed values. -/
theorem mem_foldl_observe {x : ℚ} (vs : List ℚ) (h : Histogram)
    (hx : x ∈ (vs.foldl Histogram.observe h).samples) :
    x ∈ h.samples ∨ x ∈ vs := by
  induction vs generalizing h with
  | nil => exact Or.inl hx
  | cons v rest ih =>
    rcases ih (h.observe v) hx with h1 | h2
    · rcases mem_observe_samples h1 with h3 | h4
      · exact Or.inl h3
      · exact Or.inr (by simp [h4])
    · exact Or.inr (List.mem_cons_of_mem _ h2)

/-- The sort used by the percentile query really sorts. -/
theorem insertionSort_sorted_le (l : List ℚ) :
    List.Pairwise (· ≤ ·) (l.insertionSort (· ≤ ·)) :=
  List.sorted_insertionSort (· ≤ ·) l

/-- A convex combination with coefficient in `[0, 1]` of two ordered
values stays between them. -/
theorem interp_formula_bounds (lo hi f : ℚ) (hlohi : lo ≤ hi)
    (hf0 : 0 ≤ f) (hf1 : f ≤ 1) :
    lo ≤ lo + f * (hi - lo) ∧ lo + f * (hi - lo) ≤ hi := by
  constructor <;> nlinarith

/-- The interpolated rank value of a sorted nonempty window lies between
two elements of the window. -/
theorem interpolateRank_between (s : List ℚ) (hne : s ≠ [])
    (hsort : List.Pairwise (· ≤ ·) s) (q : ℚ) (hq0 : 0 ≤ q) (hq1 : q ≤ 1) :
    ∃ lo ∈ s, ∃ hi ∈ s, lo ≤ interpolateRank s q ∧ interpolateRank s q ≤ hi := by
  have hlen : 0 < s.length := List.length_pos.mpr hne
  have hn1 : (0 : ℚ) ≤ (s.length : ℚ) - 1 := by
    have : (1 : ℚ) ≤ (s.length : ℚ) := by exact_mod_cast hlen
    linarith
  have hpos0 : 0 ≤ q * ((s.length : ℚ) - 1) := mul_nonneg hq0 hn1
  have hposle : q * ((s.length : ℚ) - 1) ≤ (s.length : ℚ) - 1 := by
    nlinarith
  have hfl0 : 0 ≤ ⌊q * ((s.length : ℚ) - 1)⌋ := Int.floor_nonneg.mpr hpos0
  have hfloor_cast : ⌊((s.length : ℚ) - 1)⌋ = (s.length : ℤ) - 1 := by
    rw [show ((s.length : ℚ) - 1) = (((s.length : ℤ) - 1 : ℤ) : ℚ) by push_cast; ring,
      Int.floor_intCast]
  have hfl_le : ⌊q * ((s.length : ℚ) - 1)⌋ ≤ (s.length : ℤ) - 1 := by
    have h2 := Int.floor_le_floor hposle
    rwa [hfloor_cast] at h2
  have hiℤ : ((⌊q * ((s.length : ℚ) - 1)⌋).toNat : ℤ) = ⌊q * ((s.length : ℚ) - 1)⌋ :=
    Int.toNat_of_nonneg hfl0
  have hi_lt : (⌊q * ((s.length : ℚ) - 1)⌋).toNat < s.length := by omega
  have hj_lt : min ((⌊q * ((s.length : ℚ) - 1)⌋).toNat + 1) (s.length - 1) < s.length := by
    omega
  have hij : (⌊q * ((s.length : ℚ) - 1)⌋).toNat
      ≤ min ((⌊q * ((s.length : ℚ) - 1)⌋).toNat + 1) (s.length - 1) := by omega
  have hval : interpolateRank s q
      = s.getD ((⌊q * ((s.length : ℚ) - 1)⌋).toNat) 0
        + (q * ((s.length : ℚ) - 1) - (⌊q * ((s.length : ℚ) - 1)⌋ : ℚ))
          * (s.getD (min ((⌊q * ((s.length : ℚ) - 1)⌋).toNat + 1) (s.length - 1)) 0
             - s.getD ((⌊q * ((s.length : ℚ) - 1)⌋).toNat) 0) := rfl
  have hloD : s.getD ((⌊q * ((s.length : ℚ) - 1)⌋).toNat) 0
      = s[(⌊q * ((s.length : ℚ) - 1)⌋).toNat] := List.getD_eq_getElem s 0 hi_lt
  have hhiD : s.getD (min ((⌊q * ((s.length : ℚ) - 1)⌋).toNat + 1) (s.length - 1)) 0
      = s[min ((⌊q * ((s.length : ℚ) - 1)⌋).toNat + 1) (s.length - 1)] :=
    List.getD_eq_getElem s 0 hj_lt
  have hlohi : s.getD ((⌊q * ((s.length : ℚ) - 1)⌋).toNat) 0
      ≤ s.getD (min ((⌊q * ((s.length : ℚ) - 1)⌋).toNat + 1) (s.length - 1)) 0 := by
    rw [hloD, hhiD]
    rcases Nat.lt_or_ge ((⌊q * ((s.length : ℚ) - 1)⌋).toNat)
        (min ((⌊q * ((s.length : ℚ) - 1)⌋).toNat + 1) (s.length - 1)) with hlt | hge
    · exact List.pairwise_iff_getElem.mp hsort _ _ hi_lt hj_lt hlt
    · have heq : (⌊q * ((s.length : ℚ) - 1)⌋).toNat
          = min ((⌊q * ((s.length : ℚ) - 1)⌋).toNat + 1) (s.length - 1) := by omega
      exact le_of_eq (getElem_congr heq)
  have hf0 : (0 : ℚ) ≤ q * ((s.length : ℚ) - 1) - (⌊q * ((s.length : ℚ) - 1)⌋ : ℚ) :=
    sub_nonneg.mpr (Int.floor_le _)
  have hf1 : q * ((s.length : ℚ) - 1) - (⌊q * ((s.length : ℚ) - 1)⌋ : ℚ) ≤ 1 := by
    have := Int.lt_floor_add_one (q * ((s.length : ℚ) - 1))
    push_cast at this ⊢
    linarith
  obtain ⟨hb1, hb2⟩ := interp_formula_bounds _ _ _ hlohi hf0 hf1
  refine ⟨s.getD ((⌊q * ((s.length : ℚ) - 1)⌋).toNat) 0, ?_,
    s.getD (min ((⌊q * ((s.length : ℚ) - 1)⌋).toNat + 1) (s.length - 1)) 0, ?_, ?_, ?_⟩
  · rw [hloD]; exact List.getElem_mem _
  · rw [hhiD]; exact List.getElem_mem _
  · rw [hval]; exact hb1
  · rw [hval]; exact hb2

/-- C3: for every nonempty observation sequence folded into a histogram,
the rank-0.5 percentile (as returned by the p50 metric handlers) lies
between the minimum and the maximum of the observed values inclusive;
for an empty histogram the query returns the no-data sentinel instead of
raising. -/
theorem c3_p50_bounds (cap : ℕ) (vs : List ℚ) (hne : vs ≠ []) :
    (Histogram.create cap).percentile (1 / 2) = none ∧
    ∃ p, p50Handler (vs.foldl Histogram.observe (Histogram.create cap)) = some p ∧
      vs.minimum ≤ (p : WithTop ℚ) ∧ (p : WithBot ℚ) ≤ vs.maximum := by
  refine ⟨rfl, ?_⟩
  have hsamp_ne : (vs.foldl Histogram.observe (Histogram.create cap)).samples ≠ [] :=
    foldl_observe_ne_nil vs (Histogram.create cap) hne
  have hsne : (vs.foldl Histogram.observe (Histogram.create cap)).samples.insertionSort
      (· ≤ ·) ≠ [] := by
    intro hcon
    have h2 := (List.perm_insertionSort (· ≤ ·)
      (vs.foldl Histogram.observe (Histogram.create cap)).samples).length_eq
    rw [hcon] at h2
    exact hsamp_ne (List.length_eq_zero.mp h2.symm)
  have hps : (vs.foldl Histogram.observe (Histogram.create cap)).percentile (1 / 2)
      = some (interpolateRank
          ((vs.foldl Histogram.observe (Histogram.create cap)).samples.insertionSort
            (· ≤ ·)) (1 / 2)) := by
    rw [Histogram.percentile]
    split
    · next heq => exact absurd heq hsamp_ne
    · rfl
  obtain ⟨lo, hlo_mem, hi, hhi_mem, hblo, hbhi⟩ :=
    interpolateRank_between _ hsne (insertionSort_sorted_le _) (1 / 2)
      (by norm_num) (by norm_num)
  have hlo_vs : lo ∈ vs := by
    rcases mem_foldl_observe vs _ ((List.perm_insertionSort (· ≤ ·) _).mem_iff.mp hlo_mem) with h1 | h2
    · exact absurd h1 (by simp [Histogram.create])
    · exact h2
  have hhi_vs : hi ∈ vs := by
    rcases mem_foldl_observe vs _ ((List.perm_insertionSort (· ≤ ·) _).mem_iff.mp hhi_mem) with h1 | h2
    · exact absurd h1 (by simp [Histogram.create])
    · exact h2
  refine ⟨_, by rw [p50Handler, hps], ?_, ?_⟩
  · exact le_trans (List.minimum_le_of_mem' hlo_vs) (WithTop.coe_le_coe.mpr hblo)
  · exact le_trans (WithBot.coe_le_coe.mpr hbhi) (List.le_maximum_of_mem' hhi_vs)

/-- C3, witness: the observations 100, 0, 50 give a median of 50, and the
empty histogram answers with the sentinel. -/
theorem c3_p50_bounds_witness :
    (Histogram.create 5).percentile (1 / 2) = none ∧
    p50Handler (([100, 0, 50] : List ℚ).foldl Histogram.observe (Histogram.create 5))
      = some 50 := by
  have h := c3_p50_bounds 5 [100, 0, 50] (by simp)
  refine ⟨h.1, ?_⟩
  norm_num [p50Handler, Histogram.percentile, Histogram.observe, Histogram.create,
    List.insertionSort, List.orderedInsert, interpolateRank, List.getD]

/-- C4: when the metric service (or, for RuntimeMetrics, the runtime
stats service) cannot be located at init time, init logs a diagnostic
and returns leaving the component inert: no metric is registered, no
interval is scheduled, and no data listener is attached. -/
theorem c4_missing_service_inert :
    (∀ (hs : Bool) (cfg : V8ConfigArg), cfg ≠ .flag false →
      (V8Metric.init false hs cfg V8State.initial).metricStore = [] ∧
      (V8Metric.init false hs cfg V8State.initial).scheduled = [] ∧
      (V8Metric.init false hs cfg V8State.initial).logs
        = ["Failed to load metric service"]) ∧
    (∀ (rs : Bool) (cfg : RMConfigArg), cfg ≠ .flag false →
      (RuntimeMetrics.init false rs cfg RMObj.initial).registered = [] ∧
      (RuntimeMetrics.init false rs cfg RMObj.initial).listeners = [] ∧
      (RuntimeMetrics.init false rs cfg RMObj.initial).handleId = none ∧
      (RuntimeMetrics.init false rs cfg RMObj.initial).logs
        = ["Failed to load metric service"]) ∧
    (∀ cfg : RMConfigArg, cfg ≠ .flag false →
      (RuntimeMetrics.init true false cfg RMObj.initial).registered = [] ∧
      (RuntimeMetrics.init true false cfg RMObj.initial).listeners = [] ∧
      (RuntimeMetrics.init true false cfg RMObj.initial).handleId = none ∧
      (RuntimeMetrics.init true false cfg RMObj.initial).logs
        = ["Failed to load runtime stats service"]) := by
  refine ⟨?_, ?_, ?_⟩
  · intro hs cfg hcfg
    cases cfg with
    | flag b =>
      cases b
      · exact absurd rfl hcfg
      · exact ⟨rfl, rfl, rfl⟩
    | conf c => exact ⟨rfl, rfl, rfl⟩
  · intro rs cfg hcfg
    cases cfg with
    | omitted => exact ⟨rfl, rfl, rfl, rfl⟩
    | flag b =>
      cases b
      · exact absurd rfl hcfg
      · exact ⟨rfl, rfl, rfl, rfl⟩
    | conf c => exact ⟨rfl, rfl, rfl, rfl⟩
  · intro cfg hcfg
    cases cfg with
    | omitted => exact ⟨rfl, rfl, rfl, rfl⟩
    | flag b =>
      cases b
      · exact absurd rfl hcfg
      · exact ⟨rfl, rfl, rfl, rfl⟩
    | conf c => exact ⟨rfl, rfl, rfl, rfl⟩

/-- C4, witness: the theorem applied at concrete configurations. -/
theorem c4_missing_service_inert_witness :
    (V8Metric.init false true (.flag true) V8State.initial).metricStore = [] ∧
    (RuntimeMetrics.init false true .omitted RMObj.initial).listeners = [] ∧
    (RuntimeMetrics.init true false .omitted RMObj.initial).logs
      = ["Failed to load runtime stats service"] :=
  ⟨(c4_missing_service_inert.1 true (.flag true) (by decide)).1,
   (c4_missing_service_inert.2.1 true .omitted (by decide)).2.1,
   (c4_missing_service_inert.2.2 .omitted (by decide)).2.2.2⟩

/-- The only interval scheduled, if any, is the one `this.timer` refers
to. This holds as long as init has run effectively at most once. -/
def V8SingleTimer (st : V8State) : Prop :=
  ∀ p ∈ st.scheduled, st.timerRef = some p.1

/-- Under the single-timer invariant `destroy` unschedules everything. -/
theorem v8_destroyStep_scheduled {st : V8State} (hI : V8SingleTimer st) :
    (V8Metric.destroyStep st).scheduled = [] := by
  rcases htr : st.timerRef with _ | tid
  · rw [V8Metric.destroyStep, htr]
    refine List.eq_nil_iff_forall_not_mem.mpr (fun p hp => ?_)
    have h2 := hI p hp
    rw [htr] at h2
    cases h2
  · rw [V8Metric.destroyStep, htr]
    show st.scheduled.filter (fun p => ¬ p.1 = tid) = []
    refine List.filter_eq_nil_iff.mpr (fun p hp => ?_)
    have h2 := hI p hp
    rw [htr] at h2
    simp at h2 ⊢
    exact h2.symm

/-- Every branch of `V8Metric.init` either leaves the timer state alone
or schedules one fresh unref-ed interval and points `this.timer` at it. -/
theorem v8_init_cases (ms hs : Bool) (cfg : V8ConfigArg) (st : V8State) :
    ((V8Metric.init ms hs cfg st).scheduled = st.scheduled ∧
     (V8Metric.init ms hs cfg st).timerRef = st.timerRef) ∨
    ((V8Metric.init ms hs cfg st).scheduled
        = (st.scheduled ++ [(st.nextTimerId, false)]).map
            (fun p => if p.1 = st.nextTimerId then (p.1, true) else p) ∧
     (V8Metric.init ms hs cfg st).timerRef = some st.nextTimerId) := by
  cases cfg with
  | flag b =>
    cases b
    · exact Or.inl ⟨rfl, rfl⟩
    · cases ms
      · exact Or.inl ⟨rfl, rfl⟩
      · cases hs
        · exact Or.inl ⟨rfl, rfl⟩
        · exact Or.inr ⟨rfl, rfl⟩
  | conf c =>
    cases ms
    · exact Or.inl ⟨rfl, rfl⟩
    · cases hs
      · exact Or.inl ⟨rfl, rfl⟩
      · exact Or.inr ⟨rfl, rfl⟩

/-- Operations other than init preserve the single-timer invariant. -/
theorem v8_step_noinit {st : V8State} {op : V8Op} (hni : op.isInit = false)
    (hI : V8SingleTimer st) : V8SingleTimer (V8Op.step st op) := by
  cases op with
  | initOp ms hs cfg => simp [V8Op.isInit] at hni
  | destroyOp =>
    intro p hp
    rw [show V8Op.step st .destroyOp = V8Metric.destroyStep st from rfl,
        v8_destroyStep_scheduled hI] at hp
    cases hp
  | tickOp stats =>
    show V8SingleTimer (if st.scheduled.isEmpty then st else V8Metric.tick stats st)
    by_cases hemp : st.scheduled.isEmpty
    · rw [if_pos hemp]; exact hI
    · rw [if_neg hemp]; exact hI

/-- A run with no init call preserves the single-timer invariant. -/
theorem v8_run_noinit (ops : List V8Op) (st : V8State)
    (h0 : ops.countP V8Op.isInit = 0) (hI : V8SingleTimer st) :
    V8SingleTimer (ops.foldl V8Op.step st) := by
  induction ops generalizing st with
  | nil => exact hI
  | cons op rest ih =>
    rw [List.countP_cons] at h0
    rw [List.foldl_cons]
    have hni : op.isInit = false := by
      rcases hq : op.isInit
      · rfl
      · rw [hq] at h0; simp at h0
    rw [hni] at h0
    simp only [Bool.false_eq_true, if_false, Nat.add_zero] at h0
    exact ih (V8Op.step st op) h0 (v8_step_noinit hni hI)

/-- A run with at most one init call, started from a state with nothing
scheduled, ends in the single-timer invariant. -/
theorem v8_run_single (ops : List V8Op) (st : V8State)
    (h1 : ops.countP V8Op.isInit ≤ 1) (hI : V8SingleTimer st)
    (hQ : st.scheduled = []) :
    V8SingleTimer (ops.foldl V8Op.step st) := by
  induction ops generalizing st with
  | nil => exact hI
  | cons op rest ih =>
    rw [List.countP_cons] at h1
    rw [List.foldl_cons]
    cases op with
    | initOp ms hs cfg =>
      simp only [V8Op.isInit, if_pos] at h1
      have h0 : rest.countP V8Op.isInit = 0 := by omega
      apply v8_run_noinit rest _ h0
      have hstep : V8Op.step st (.initOp ms hs cfg) = V8Metric.init ms hs cfg st := rfl
      rw [hstep]
      rcases v8_init_cases ms hs cfg st with ⟨hsch, _⟩ | ⟨hsch, href⟩
      · intro p hp
        rw [hsch, hQ] at hp
        cases hp
      · intro p hp
        rw [hsch, hQ] at hp
        simp at hp
        rw [href, hp]
    | destroyOp =>
      simp only [V8Op.isInit] at h1
      have hsch := v8_destroyStep_scheduled hI
      exact ih (V8Metric.destroyStep st) (by omega)
        (fun p hp => by rw [hsch] at hp; cases hp) hsch
    | tickOp stats =>
      simp only [V8Op.isInit] at h1
      show V8SingleTimer (List.foldl V8Op.step
        (if st.scheduled.isEmpty then st else V8Metric.tick stats st) rest)
      rw [hQ]
      exact ih st (by omega) hI hQ

/-- At most one listener is attached, it is the closure `this.handle`
refers to and was attached while the service reference was set; and a set
service reference implies `this.handle` is a function. This holds as long
as init has run at most once. -/
def RMSingleListener (rm : RMObj) : Prop :=
  rm.listeners.length ≤ 1 ∧
  (∀ l ∈ rm.listeners, rm.handleId = some l.id ∧ rm.runtimeStatsPresent = true) ∧
  (rm.runtimeStatsPresent = true → rm.handleId.isSome = true)

/-- Delivering a data event does not change which closures are attached:
the listener identities are preserved in order. -/
theorem runListeners_ids (d : JsVal) (ls : List RMListener) (mm : RMMetricsMap) :
    (runListeners d ls mm).1.map (fun l => l.id) = ls.map (fun l => l.id) := by
  induction ls generalizing mm with
  | nil => rfl
  | cons l rest ih =>
    rw [runListeners]
    split
    · next hs hh =>
      rcases hrec : runListeners d rest hs.metricsMap with ⟨ls2, mm2⟩
      have h2 := ih hs.metricsMap
      rw [hrec] at h2
      simp at h2
      simp [h2]
    · rfl

/-- Under the single-listener invariant a destroy that returns normally
detaches every listener and keeps the handle and service fields. -/
theorem rm_destroy_ok_single {rm rm' : RMObj} (hJ : RMSingleListener rm)
    (h : RuntimeMetrics.destroyRun rm = .ok rm') :
    rm'.listeners = [] ∧ rm'.handleId = rm.handleId ∧
    rm'.runtimeStatsPresent = rm.runtimeStatsPresent := by
  rw [RuntimeMetrics.destroyRun] at h
  by_cases hrs : rm.runtimeStatsPresent = true
  · rw [if_pos hrs] at h
    rcases hid : rm.handleId with _ | i
    · rw [hid] at h
      simp at h
    · rw [hid] at h
      simp only [Except.ok.injEq] at h
      subst h
      refine ⟨?_, rfl, rfl⟩
      rcases hl : rm.listeners with _ | ⟨l, rest⟩
      · simp [hl, removeListenerById, eraseFirstById]
      · have hlen := hJ.1
        rw [hl] at hlen
        rw [List.length_cons] at hlen
        have hrest : rest = [] := List.eq_nil_of_length_eq_zero (by omega)
        subst hrest
        have hli := (hJ.2.1 l (by rw [hl]; simp)).1
        rw [hid] at hli
        simp only [Option.some.injEq] at hli
        simp [hl, removeListenerById, eraseFirstById, hli]
  · rw [if_neg hrs] at h
    simp only [Except.ok.injEq] at h
    subst h
    refine ⟨?_, rfl, rfl⟩
    refine List.eq_nil_iff_forall_not_mem.mpr (fun l hl => ?_)
    exact hrs ((hJ.2.1 l hl).2)

/-- Delivering a data event preserves the single-listener invariant. -/
theorem rm_deliver_single {rm : RMObj} (d : JsVal) (hJ : RMSingleListener rm) :
    RMSingleListener (RuntimeMetrics.deliverData d rm) := by
  have hids := runListeners_ids d rm.listeners rm.metricsMap
  rcases hrec : runListeners d rm.listeners rm.metricsMap with ⟨ls2, mm2⟩
  have hfields : (RuntimeMetrics.deliverData d rm).listeners = ls2 ∧
      (RuntimeMetrics.deliverData d rm).handleId = rm.handleId ∧
      (RuntimeMetrics.deliverData d rm).runtimeStatsPresent
        = rm.runtimeStatsPresent := by
    rw [RuntimeMetrics.deliverData, hrec]
    exact ⟨rfl, rfl, rfl⟩
  rw [hrec] at hids
  refine ⟨?_, ?_, ?_⟩
  · rw [hfields.1]
    have h2 := congrArg List.length hids
    simp only [List.length_map] at h2
    rw [h2]
    exact hJ.1
  · intro l hl
    rw [hfields.1] at hl
    have h3 : l.id ∈ rm.listeners.map (fun l => l.id) := by
      rw [← hids]
      exact List.mem_map_of_mem _ hl
    obtain ⟨l0, hl0, hid0⟩ := List.mem_map.mp h3
    exact ⟨by rw [hfields.2.1, (hJ.2.1 l0 hl0).1, hid0],
      by rw [hfields.2.2]; exact (hJ.2.1 l0 hl0).2⟩
  · rw [hfields.2.2, hfields.2.1]
    exact hJ.2.2

/-- Every branch of `RuntimeMetrics.init` either leaves the listener
state alone (possibly clearing the service reference) or attaches one
fresh listener and points `this.handle` at it. -/
theorem rm_init_cases (ms rs : Bool) (cfg : RMConfigArg) (rm : RMObj) :
    ((RuntimeMetrics.init ms rs cfg rm).listeners = rm.listeners ∧
     (RuntimeMetrics.init ms rs cfg rm).handleId = rm.handleId ∧
     ((RuntimeMetrics.init ms rs cfg rm).runtimeStatsPresent
        = rm.runtimeStatsPresent ∨
      (RuntimeMetrics.init ms rs cfg rm).runtimeStatsPresent = false)) ∨
    ((RuntimeMetrics.init ms rs cfg rm).listeners
        = rm.listeners ++ [⟨rm.nextId, [], []⟩] ∧
     (RuntimeMetrics.init ms rs cfg rm).handleId = some rm.nextId ∧
     (RuntimeMetrics.init ms rs cfg rm).runtimeStatsPresent = true) := by
  cases cfg with
  | omitted =>
    cases ms
    · exact Or.inl ⟨rfl, rfl, Or.inl rfl⟩
    · cases rs
      · exact Or.inl ⟨rfl, rfl, Or.inr rfl⟩
      · exact Or.inr ⟨rfl, rfl, rfl⟩
  | flag b =>
    cases b
    · exact Or.inl ⟨rfl, rfl, Or.inl rfl⟩
    · cases ms
      · exact Or.inl ⟨rfl, rfl, Or.inl rfl⟩
      · cases rs
        · exact Or.inl ⟨rfl, rfl, Or.inr rfl⟩
        · exact Or.inr ⟨rfl, rfl, rfl⟩
  | conf c =>
    cases ms
    · exact Or.inl ⟨rfl, rfl, Or.inl rfl⟩
    · cases rs
      · exact Or.inl ⟨rfl, rfl, Or.inr rfl⟩
      · exact Or.inr ⟨rfl, rfl, rfl⟩

/-- Operations other than init preserve the single-listener invariant. -/
theorem rm_step_noinit {rm : RMObj} {op : RMOp} (hni : op.isInit = false)
    (hJ : RMSingleListener rm) : RMSingleListener (RMObj.step rm op) := by
  cases op with
  | initOp ms rs cfg => simp [RMOp.isInit] at hni
  | destroyOp =>
    have hstep : RMObj.step rm .destroyOp
        = (match RuntimeMetrics.destroyRun rm with
           | .ok rm2 => rm2
           | .error _ => rm) := rfl
    rcases hd : RuntimeMetrics.destroyRun rm with e | rm2
    · rw [hstep, hd]
      exact hJ
    · rw [hstep, hd]
      obtain ⟨hls, hhid, hrs⟩ := rm_destroy_ok_single hJ hd
      refine ⟨?_, ?_, ?_⟩
      · rw [hls]; simp
      · intro l hl
        rw [hls] at hl
        cases hl
      · rw [hrs, hhid]
        exact hJ.2.2
  | dataOp d => exact rm_deliver_single d hJ

/-- A run with no init call preserves the single-listener invariant. -/
theorem rm_run_noinit (ops : List RMOp) (rm : RMObj)
    (h0 : ops.countP RMOp.isInit = 0) (hJ : RMSingleListener rm) :
    RMSingleListener (ops.foldl RMObj.step rm) := by
  induction ops generalizing rm with
  | nil => exact hJ
  | cons op rest ih =>
    rw [List.countP_cons] at h0
    rw [List.foldl_cons]
    have hni : op.isInit = false := by
      rcases hq : op.isInit
      · rfl
      · rw [hq] at h0; simp at h0
    rw [hni] at h0
    simp only [Bool.false_eq_true, if_false, Nat.add_zero] at h0
    exact ih (RMObj.step rm op) h0 (rm_step_noinit hni hJ)

/-- A run with at most one init call, started from a state with no
listener attached, ends in the single-listener invariant. -/
theorem rm_run_single (ops : List RMOp) (rm : RMObj)
    (h1 : ops.countP RMOp.isInit ≤ 1) (hJ : RMSingleListener rm)
    (hQ : rm.listeners = []) :
    RMSingleListener (ops.foldl RMObj.step rm) := by
  induction ops generalizing rm with
  | nil => exact hJ
  | cons op rest ih =>
    rw [List.countP_cons] at h1
    rw [List.foldl_cons]
    cases op with
    | initOp ms rs cfg =>
      simp only [RMOp.isInit, if_pos] at h1
      have h0 : rest.countP RMOp.isInit = 0 := by omega
      apply rm_run_noinit rest _ h0
      have hstep : RMObj.step rm (.initOp ms rs cfg)
          = RuntimeMetrics.init ms rs cfg rm := rfl
      rw [hstep]
      rcases rm_init_cases ms rs cfg rm with ⟨hls, hhid, hrs⟩ | ⟨hls, hhid, hrs⟩
      · refine ⟨?_, ?_, ?_⟩
        · rw [hls, hQ]; simp
        · intro l hl
          rw [hls, hQ] at hl
          cases hl
        · rcases hrs with hrs | hrs
          · rw [hrs, hhid]; exact hJ.2.2
          · rw [hrs]; intro hcon; cases hcon
      · refine ⟨?_, ?_, ?_⟩
        · rw [hls, hQ]; simp
        · intro l hl
          rw [hls, hQ] at hl
          simp at hl
          rw [hhid, hrs, hl]
          exact ⟨rfl, rfl⟩
        · intro _
          rw [hhid]
          rfl
    | destroyOp =>
      simp only [RMOp.isInit] at h1
      have hstep : RMObj.step rm .destroyOp
          = (match RuntimeMetrics.destroyRun rm with
             | .ok rm2 => rm2
             | .error _ => rm) := rfl
      rcases hd : RuntimeMetrics.destroyRun rm with e | rm2
      · rw [hstep, hd]
        exact ih rm (by omega) hJ hQ
      · rw [hstep, hd]
        obtain ⟨hls, hhid, hrs⟩ := rm_destroy_ok_single hJ hd
        refine ih rm2 (by omega) ⟨?_, ?_, ?_⟩ hls
        · rw [hls]; simp
        · intro l hl
          rw [hls] at hl
          cases hl
        · rw [hrs, hhid]
          exact hJ.2.2
    | dataOp d =>
      simp only [RMOp.isInit] at h1
      have hJ2 := rm_deliver_single d hJ
      have hQ2 : (RuntimeMetrics.deliverData d rm).listeners = [] := by
        rcases hrec : runListeners d rm.listeners rm.metricsMap with ⟨ls2, mm2⟩
        rw [RuntimeMetrics.deliverData, hrec]
        show ls2 = []
        rw [hQ] at hrec
        rw [runListeners] at hrec
        exact congrArg Prod.fst hrec.symm
      exact ih _ (by omega) hJ2 hQ2

/-- A data event delivered while no listener is attached changes
nothing. -/
theorem deliverData_nil (d : JsVal) (rm : RMObj) (h : rm.listeners = []) :
    RuntimeMetrics.deliverData d rm = rm := by
  conv_lhs => rw [RuntimeMetrics.deliverData]
  rw [h]
  show ({ rm with listeners := ([] : List RMListener)
                  metricsMap := rm.metricsMap } : RMObj) = rm
  rw [← h]

/-- C5, counterexample: after init, init, destroy the interval scheduled
by the first init is still scheduled (a sampling callback can still
fire), and the data listener attached by the first init is still attached
and still updates its histograms on a data event delivered after destroy
returned. The claim quantified over every operation sequence ending in
destroy is therefore false at this concrete sequence. -/
theorem c5_destroy_counterexample :
    (V8Metric.fireTick (fun _ => none)
      (V8Op.exec [V8Op.initOp true true (.flag true),
                  V8Op.initOp true true (.flag true), V8Op.destroyOp])).isSome = true ∧
    ((RuntimeMetrics.deliverData (JsVal.obj [("gc", JsVal.obj [])])
      (RMObj.exec [RMOp.initOp true true .omitted,
                   RMOp.initOp true true .omitted, RMOp.destroyOp])).listeners.map
        (fun l => l.newHist))
      = [[JsVal.undefv]] :=
  ⟨rfl, rfl⟩

/-- C5 (amended): provided init has been called at most once on the
instance, destroy synchronously stops the interval timer and detaches the
data listener, so that no further sampling callback of the component
fires after destroy returns. When init has run effectively more than
once, the timers and listeners created by the earlier init calls are not
stopped by destroy and keep firing. -/
theorem c5_destroy_amended :
    (∀ ops : List V8Op, ops.countP V8Op.isInit ≤ 1 →
      ∀ st', V8Metric.destroyRun (V8Op.exec ops) = .ok st' →
        st'.scheduled = [] ∧ ∀ stats, V8Metric.fireTick stats st' = none) ∧
    (∀ ops : List RMOp, ops.countP RMOp.isInit ≤ 1 →
      ∀ rm', RuntimeMetrics.destroyRun (RMObj.exec ops) = .ok rm' →
        rm'.listeners = [] ∧ ∀ d, RuntimeMetrics.deliverData d rm' = rm') := by
  constructor
  · intro ops h1 st' h
    have hI : V8SingleTimer (V8Op.exec ops) :=
      v8_run_single ops V8State.initial h1 (fun p hp => by cases hp) rfl
    have hok : st' = V8Metric.destroyStep (V8Op.exec ops) := by
      rw [V8Metric.destroyRun] at h
      exact (Except.ok.inj h).symm
    subst hok
    have hsch := v8_destroyStep_scheduled hI
    refine ⟨hsch, fun stats => ?_⟩
    rw [V8Metric.fireTick, hsch]
    rfl
  · intro ops h1 rm' h
    have hJ : RMSingleListener (RMObj.exec ops) := by
      refine rm_run_single ops RMObj.initial h1 ⟨?_, ?_, ?_⟩ rfl
      · simp [RMObj.initial]
      · intro l hl
        cases hl
      · intro hcon
        exact absurd hcon (by decide)
    obtain ⟨hls, _, _⟩ := rm_destroy_ok_single hJ h
    exact ⟨hls, fun d => deliverData_nil d rm' hls⟩

/-- C5, witness: the amended theorem applied to a single init followed by
destroy, for both components. -/
theorem c5_destroy_amended_witness :
    V8Metric.fireTick (fun _ => none)
      ((V8Metric.destroyRun
        (V8Op.exec [V8Op.initOp true true (.flag true)])).toOption.getD V8State.initial)
      = none ∧
    RuntimeMetrics.deliverData JsVal.undefv
      ((RuntimeMetrics.destroyRun
        (RMObj.exec [RMOp.initOp true true .omitted])).toOption.getD RMObj.initial)
      = (RuntimeMetrics.destroyRun
        (RMObj.exec [RMOp.initOp true true .omitted])).toOption.getD RMObj.initial :=
  ⟨(c5_destroy_amended.1 [V8Op.initOp true true (.flag true)] (by decide) _ (by rfl)).2
      (fun _ => none),
   (c5_destroy_amended.2 [RMOp.initOp true true .omitted] (by decide) _ (by rfl)).2
      JsVal.undefv⟩

/-- C6, counterexample: at the concrete malformed datum `null` the
handler does not log-and-drop it: since `typeof null` is the string
`object`, the guard passes and the property access `stats.gc` throws a
TypeError; no diagnostic is logged (the handler body contains no logger
call). -/
theorem c6_malformed_data_counterexample :
    RuntimeMetrics.handleData JsVal.nullv ⟨[], [], ⟨none, none, none, none⟩⟩
      = .error .typeError :=
  rfl

/-- C6 (amended): a malformed datum that is not `null` (and whose `gc`
field is not `null`) is silently dropped: when the datum's `typeof` is
not `object`, or its `gc` field's `typeof` is not `object`, the handler
returns without updating any histogram, without logging and without
throwing. When the datum itself or its `gc` field is `null` (JS `typeof`
`object`), property access throws a TypeError instead. When `gc` is a
non-null object but `usage` is not an object by `typeof`, exactly the two
GC-pause histograms are updated and the context switch and page fault
histograms stay unchanged. -/
theorem c6_malformed_data_amended :
    (∀ (hs : RMHandlerState) (stats : JsVal), stats.typeof ≠ "object" →
      RuntimeMetrics.handleData stats hs = .ok hs) ∧
    (∀ hs : RMHandlerState,
      RuntimeMetrics.handleData JsVal.nullv hs = .error .typeError) ∧
    (∀ (hs : RMHandlerState) (fields : List (String × JsVal)),
      (lookupField fields "gc").typeof ≠ "object" →
      RuntimeMetrics.handleData (.obj fields) hs = .ok hs) ∧
    (∀ (hs : RMHandlerState) (fields : List (String × JsVal)),
      lookupField fields "gc" = JsVal.nullv →
      RuntimeMetrics.handleData (.obj fields) hs = .error .typeError) ∧
    (∀ (hs : RMHandlerState) (fields gfields : List (String × JsVal)),
      lookupField fields "gc" = JsVal.obj gfields →
      (lookupField fields "usage").typeof ≠ "object" →
      RuntimeMetrics.handleData (.obj fields) hs =
        .ok { hs with newHist := hs.newHist ++ [lookupField gfields "newPause"]
                      oldHist := hs.oldHist ++ [lookupField gfields "oldPause"] }) := by
  refine ⟨?_, ?_, ?_, ?_, ?_⟩
  · intro hs stats h
    rw [RuntimeMetrics.handleData, if_pos h]
  · intro hs
    rfl
  · intro hs fields h
    rcases hgc : lookupField fields "gc" with q | s | b | _ | _ | gf
    · simp [RuntimeMetrics.handleData, JsVal.getField, JsVal.typeof, hgc]
    · simp [RuntimeMetrics.handleData, JsVal.getField, JsVal.typeof, hgc]
    · simp [RuntimeMetrics.handleData, JsVal.getField, JsVal.typeof, hgc]
    · simp [RuntimeMetrics.handleData, JsVal.getField, JsVal.typeof, hgc]
    · rw [hgc] at h
      simp [JsVal.typeof] at h
    · rw [hgc] at h
      simp [JsVal.typeof] at h
  · intro hs fields h
    simp [RuntimeMetrics.handleData, JsVal.getField, JsVal.typeof, h]
  · intro hs fields gfields h1 h2
    rcases hu : lookupField fields "usage" with q | s | b | _ | _ | uf
    · simp [RuntimeMetrics.handleData, JsVal.getField, JsVal.typeof, h1, hu]
    · simp [RuntimeMetrics.handleData, JsVal.getField, JsVal.typeof, h1, hu]
    · simp [RuntimeMetrics.handleData, JsVal.getField, JsVal.typeof, h1, hu]
    · simp [RuntimeMetrics.handleData, JsVal.getField, JsVal.typeof, h1, hu]
    · rw [hu] at h2
      simp [JsVal.typeof] at h2
    · rw [hu] at h2
      simp [JsVal.typeof] at h2

/-- C6, witness: the amended theorem applied at concrete data. -/
theorem c6_malformed_data_amended_witness :
    RuntimeMetrics.handleData (JsVal.num 42) ⟨[], [], ⟨none, none, none, none⟩⟩
      = .ok ⟨[], [], ⟨none, none, none, none⟩⟩ ∧
    RuntimeMetrics.handleData JsVal.nullv ⟨[], [], ⟨some [], none, none, none⟩⟩
      = .error .typeError ∧
    RuntimeMetrics.handleData (.obj [("gc", JsVal.num 1)])
        ⟨[], [], ⟨none, none, none, none⟩⟩
      = .ok ⟨[], [], ⟨none, none, none, none⟩⟩ ∧
    RuntimeMetrics.handleData (.obj [("gc", JsVal.nullv)])
        ⟨[], [], ⟨none, none, none, none⟩⟩
      = .error .typeError ∧
    RuntimeMetrics.handleData
        (.obj [("gc", JsVal.obj [("newPause", JsVal.num 3), ("oldPause", JsVal.num 4)])])
        ⟨[], [], ⟨some [], some [], some [], some []⟩⟩
      = .ok ⟨[JsVal.num 3], [JsVal.num 4], ⟨some [], some [], some [], some []⟩⟩ :=
  ⟨c6_malformed_data_amended.1 _ _ (by decide),
   c6_malformed_data_amended.2.1 _,
   c6_malformed_data_amended.2.2.1 _ _ (by decide),
   c6_malformed_data_amended.2.2.2.1 ⟨[], [], ⟨none, none, none, none⟩⟩
     [("gc", JsVal.nullv)] rfl,
   c6_malformed_data_amended.2.2.2.2 ⟨[], [], ⟨some [], some [], some [], some []⟩⟩
     [("gc", JsVal.obj [("newPause", JsVal.num 3), ("oldPause", JsVal.num 4)])]
     [("newPause", JsVal.num 3), ("oldPause", JsVal.num 4)] rfl (by decide)⟩

/-- C7: the configuration keys `heap_total_size` and `heap_used_size` do
not match the metric definition keys `total_heap_size` and
`used_heap_size`, so `config[k] === false` can never hold for the two
heap size definitions: with those flags set to false (and a metric
service available) `V8Metric.init` still registers both heap size
gauges; the `heap_used_percent` key does match, so it is the only one of
the three metrics the config can disable. -/
theorem c7_config_key_mismatch (cfg : V8MetricsConfig)
    (h1 : cfg.heap_total_size = false) (h2 : cfg.heap_used_size = false) :
    cfg.lookup "total_heap_size" = none ∧
    cfg.lookup "used_heap_size" = none ∧
    (storeGet (V8Metric.init true true (.conf cfg) V8State.initial).metricStore
      "total_heap_size").isSome = true ∧
    (storeGet (V8Metric.init true true (.conf cfg) V8State.initial).metricStore
      "used_heap_size").isSome = true ∧
    (storeGet (V8Metric.init true true (.conf cfg) V8State.initial).metricStore
      "heap_used_percent").isSome = cfg.heap_used_percent := by
  obtain ⟨ns, os, ms, cs, los, hts, hus, hup⟩ := cfg
  cases hup <;> exact ⟨rfl, rfl, rfl, rfl, rfl⟩

/-- C7, witness: with every config flag false, both heap size gauges are
still registered while the heap usage gauge is not. -/
theorem c7_config_key_mismatch_witness :
    (storeGet (V8Metric.init true true
        (.conf ⟨false, false, false, false, false, false, false, false⟩)
        V8State.initial).metricStore "total_heap_size").isSome = true ∧
    (storeGet (V8Metric.init true true
        (.conf ⟨false, false, false, false, false, false, false, false⟩)
        V8State.initial).metricStore "used_heap_size").isSome = true ∧
    (storeGet (V8Metric.init true true
        (.conf ⟨false, false, false, false, false, false, false, false⟩)
        V8State.initial).metricStore "heap_used_percent").isSome = false :=
  ⟨(c7_config_key_mismatch ⟨false, false, false, false, false, false, false, false⟩
      rfl rfl).2.2.1,
   (c7_config_key_mismatch ⟨false, false, false, false, false, false, false, false⟩
      rfl rfl).2.2.2.1,
   (c7_config_key_mismatch ⟨false, false, false, false, false, false, false, false⟩
      rfl rfl).2.2.2.2⟩

/-- C8: after every successful `V8Metric.init` (metric service present,
`getHeapStatistics` available, config not disabled) the freshly scheduled
sampling interval has been unref-ed and `this.timer` refers to it. -/
theorem c8_timer_unref (cfg : V8ConfigArg) (st : V8State) (h : cfg ≠ .flag false) :
    (V8Metric.init true true cfg st).timerRef = some st.nextTimerId ∧
    (st.nextTimerId, true) ∈ (V8Metric.init true true cfg st).scheduled := by
  cases cfg with
  | flag b =>
    cases b
    · exact absurd rfl h
    · refine ⟨rfl, ?_⟩
      show (st.nextTimerId, true) ∈ (st.scheduled ++ [(st.nextTimerId, false)]).map
        (fun p => if p.1 = st.nextTimerId then (p.1, true) else p)
      refine List.mem_map.mpr ⟨(st.nextTimerId, false), ?_, ?_⟩
      · exact List.mem_append_right _ (by simp)
      · simp
  | conf c =>
    refine ⟨rfl, ?_⟩
    show (st.nextTimerId, true) ∈ (st.scheduled ++ [(st.nextTimerId, false)]).map
      (fun p => if p.1 = st.nextTimerId then (p.1, true) else p)
    refine List.mem_map.mpr ⟨(st.nextTimerId, false), ?_, ?_⟩
    · exact List.mem_append_right _ (by simp)
    · simp

/-- C8, witness: the theorem applied to a fresh instance with the default
configuration. -/
theorem c8_timer_unref_witness :
    (V8Metric.init true true (.flag true) V8State.initial).timerRef = some 0 ∧
    (0, true) ∈ (V8Metric.init true true (.flag true) V8State.initial).scheduled :=
  c8_timer_unref (.flag true) V8State.initial (by decide)

/-- Destroy keeps the handle and service fields whenever it returns
normally (it only detaches a listener and logs). -/
theorem rm_destroy_ok_fields {rm rm2 : RMObj}
    (h : RuntimeMetrics.destroyRun rm = .ok rm2) :
    rm2.handleId = rm.handleId ∧ rm2.runtimeStatsPresent = rm.runtimeStatsPresent := by
  rw [RuntimeMetrics.destroyRun] at h
  by_cases hrs : rm.runtimeStatsPresent = true
  · rw [if_pos hrs] at h
    rcases hid : rm.handleId with _ | i
    · rw [hid] at h
      simp at h
    · rw [hid] at h
      simp only [Except.ok.injEq] at h
      subst h
      exact ⟨rfl, rfl⟩
  · rw [if_neg hrs] at h
    simp only [Except.ok.injEq] at h
    subst h
    exact ⟨rfl, rfl⟩

/-- Delivering a data event touches only listeners and the metrics map. -/
theorem rm_deliver_fields (d : JsVal) (rm : RMObj) :
    (RuntimeMetrics.deliverData d rm).handleId = rm.handleId ∧
    (RuntimeMetrics.deliverData d rm).runtimeStatsPresent = rm.runtimeStatsPresent := by
  rcases hrec : runListeners d rm.listeners rm.metricsMap with ⟨ls2, mm2⟩
  rw [RuntimeMetrics.deliverData, hrec]
  exact ⟨rfl, rfl⟩

/-- A set runtime stats service reference implies `this.handle` is a
function; this is the fact that keeps `removeListener` from throwing. -/
def RMHandleInv (rm : RMObj) : Prop :=
  rm.runtimeStatsPresent = true → rm.handleId.isSome = true

/-- Every operation preserves the handle invariant. -/
theorem rm_step_handleInv {rm : RMObj} (op : RMOp) (h : RMHandleInv rm) :
    RMHandleInv (RMObj.step rm op) := by
  cases op with
  | initOp ms rs cfg =>
    have hstep : RMObj.step rm (.initOp ms rs cfg)
        = RuntimeMetrics.init ms rs cfg rm := rfl
    rw [hstep]
    rcases rm_init_cases ms rs cfg rm with ⟨_, hhid, hrs⟩ | ⟨_, hhid, hrs⟩
    · rcases hrs with hrs | hrs
      · intro hc
        rw [hhid]
        exact h (by rw [← hrs]; exact hc)
      · intro hc
        rw [hrs] at hc
        cases hc
    · intro _
      rw [hhid]
      rfl
  | destroyOp =>
    have hstep : RMObj.step rm .destroyOp
        = (match RuntimeMetrics.destroyRun rm with
           | .ok rm2 => rm2
           | .error _ => rm) := rfl
    rcases hd : RuntimeMetrics.destroyRun rm with e | rm2
    · rw [hstep, hd]
      exact h
    · rw [hstep, hd]
      obtain ⟨hhid, hrs⟩ := rm_destroy_ok_fields hd
      intro hc
      rw [hhid]
      exact h (by rw [← hrs]; exact hc)
  | dataOp d =>
    have hstep : RMObj.step rm (.dataOp d) = RuntimeMetrics.deliverData d rm := rfl
    rw [hstep]
    obtain ⟨hhid, hrs⟩ := rm_deliver_fields d rm
    intro hc
    rw [hhid]
    exact h (by rw [← hrs]; exact hc)

/-- C10: `destroy` never throws on either component, for every call
sequence: before init was ever called, after an init that returned early
because a dependency was missing, and when called more than once. For
`V8Metric` the body has no throwing construct at all; for
`RuntimeMetrics`, whenever the runtime stats service reference is set,
`this.handle` holds a function, so the `removeListener` argument check
never fires. -/
theorem c10_destroy_never_throws :
    (∀ st : V8State, (V8Metric.destroyRun st).isOk = true) ∧
    (∀ ops : List RMOp, (RuntimeMetrics.destroyRun (RMObj.exec ops)).isOk = true) := by
  constructor
  · intro st
    rfl
  · intro ops
    have hinv : RMHandleInv (RMObj.exec ops) := by
      have hfold : ∀ (l : List RMOp) (rm : RMObj), RMHandleInv rm →
          RMHandleInv (l.foldl RMObj.step rm) := by
        intro l
        induction l with
        | nil => exact fun rm h => h
        | cons op rest ih => exact fun rm h => ih _ (rm_step_handleInv op h)
      exact hfold ops RMObj.initial (fun hc => absurd hc (by decide))
    rw [RuntimeMetrics.destroyRun]
    by_cases hrs : (RMObj.exec ops).runtimeStatsPresent = true
    · rw [if_pos hrs]
      rcases hid : (RMObj.exec ops).handleId with _ | i
      · have h2 := hinv hrs
        rw [hid] at h2
        simp at h2
      · rfl
    · rw [if_neg hrs]
      rfl

/-- C9: on a timer tick over the default configuration, each heap size
gauge whose heap statistics field is a number is set to the string
`(bytes/1024/1024).toFixed(2)` — a two-decimal MiB string, not a number —
and the heap usage gauge is set to the number
`parseFloat((used_heap_size / total_heap_size * 100).toFixed(2))`. The
hypothesis `t ≠ 0` keeps the statement inside the rational model of
JavaScript numbers (at `t = 0` JavaScript would produce a non-finite
usage value). -/
theorem c9_tick_values (stats : String → Option ℚ) (t u : ℚ)
    (ht : stats "total_heap_size" = some t) (hu : stats "used_heap_size" = some u)
    (_htz : t ≠ 0) :
    storeGet (V8Metric.tick stats
        (V8Metric.init true true (.flag true) V8State.initial)).metricStore
      "total_heap_size" = some (some (.str (formatMiBytes t))) ∧
    storeGet (V8Metric.tick stats
        (V8Metric.init true true (.flag true) V8State.initial)).metricStore
      "used_heap_size" = some (some (.str (formatMiBytes u))) ∧
    storeGet (V8Metric.tick stats
        (V8Metric.init true true (.flag true) V8State.initial)).metricStore
      "heap_used_percent" = some (some (.num (parseFloat2 (u / t * 100)))) := by
  rcases hp : stats "heap_used_percent" with _ | q <;>
    simp [V8Metric.tick, v8TickStep, v8MetricsDefinitions, storeGet, storePut,
      ht, hu, hp]

/-- C9, witness: a tick with a two-MiB heap total and one MiB used sets
the two MiB strings and a 50 percent usage number. -/
theorem c9_tick_values_witness :
    storeGet (V8Metric.tick
        (fun k => if k = "total_heap_size" then some 2097152 else
          if k = "used_heap_size" then some 1048576 else none)
        (V8Metric.init true true (.flag true) V8State.initial)).metricStore
      "total_heap_size" = some (some (.str "2.00")) ∧
    storeGet (V8Metric.tick
        (fun k => if k = "total_heap_size" then some 2097152 else
          if k = "used_heap_size" then some 1048576 else none)
        (V8Metric.init true true (.flag true) V8State.initial)).metricStore
      "used_heap_size" = some (some (.str "1.00")) ∧
    storeGet (V8Metric.tick
        (fun k => if k = "total_heap_size" then some 2097152 else
          if k = "used_heap_size" then some 1048576 else none)
        (V8Metric.init true true (.flag true) V8State.initial)).metricStore
      "heap_used_percent" = some (some (.num 50)) := by
  have h := c9_tick_values
    (fun k => if k = "total_heap_size" then some 2097152 else
      if k = "used_heap_size" then some 1048576 else none)
    2097152 1048576 rfl rfl (by norm_num)
  have hfmt2 : formatMiBytes 2097152 = "2.00" := by
    rw [formatMiBytes, toFixed2]
    norm_num [round_eq]
    decide
  have hfmt1 : formatMiBytes 1048576 = "1.00" := by
    rw [formatMiBytes, toFixed2]
    norm_num [round_eq]
    decide
  have hpf : parseFloat2 ((1048576 : ℚ) / 2097152 * 100) = 50 := by
    rw [parseFloat2]
    norm_num [round_eq]
  refine ⟨?_, ?_, ?_⟩
  · rw [h.1, hfmt2]
  · rw [h.2.1, hfmt1]
  · rw [h.2.2, hpf]

end PM2IO
